import Mathlib

/-!
Verification of the `generic` type-inference engine (Go).

This file shallowly embeds the parts of the engine that the checked claims
exercise: the type value model (`type.go`), the unifier
(`unification.go`: `Unify`, `unifyVar`, `unifyMethod`, `occurs`, `resolve`,
`isInterfaceAny`), the constraint checker (`constraint.go`), and the
substitution / generic-instantiation engine plus the relevant inference-driver
cases (`infer.go`).

Modelling conventions:
* Go `Type` values are pointers into a heap; each node of the Lean `Ty` tree
  carries an `addr : Nat` modelling its allocation address.  Go pointer
  equality (used by `unifyVar`/`occurs` on type variables and by the
  pointer-keyed `TypeVisitor`) is modelled as address equality.
* Go maps (`TypeEnv`, `MethodSet`, field maps, constraint maps) are modelled
  as association lists looked up by key; loops over maps become loops over
  the list in order.
* The engine's recursion can diverge on cyclic environments (e.g. an
  environment binding `T -> TypeVar(T)`), so every recursive function takes a
  fuel argument and returns `none` when fuel runs out.  A `some` result is
  exactly what the Go code computes.
* A Go runtime panic (a failing unchecked type assertion) is modelled by the
  distinguished result `crash`.
-/

set_option maxHeartbeats 1000000

namespace GenericGo

mutual

/-- Model of the closed `Type` union of `type.go`: one constructor per
variant (`TypeVariable`, `TypeConstant`, `FunctionType`, `TupleType`,
`InterfaceType`, `PointerType`, `StructType`, `SliceType`, `ArrayType`,
`MapType`, `GenericType`, `TypeAlias`).  Each constructor's first field is
the node's heap address. -/
inductive Ty : Type where
  | tvar (addr : Nat) (name : String)
  | tconst (addr : Nat) (name : String)
  | fn (addr : Nat) (paramTypes : List Ty) (returnType : Ty) (isVariadic : Bool)
  | tuple (addr : Nat) (types : List Ty)
  | iface (addr : Nat) (name : String) (methods : List (String × GoMethod))
      (embedded : List Ty) (isEmpty : Bool)
  | ptr (addr : Nat) (base : Ty)
  | strukt (addr : Nat) (name : String) (fields : List (String × Ty))
      (methods : List (String × GoMethod))
  | slice (addr : Nat) (elementType : Ty)
  | array (addr : Nat) (elementType : Ty) (len : Int)
  | tmap (addr : Nat) (keyType : Ty) (valueType : Ty)
  | generic (addr : Nat) (g : GenericTy)
  | alias (addr : Nat) (name : String) (aliasedTo : Ty)

/-- Model of `Method` in `type.go`. -/
inductive GoMethod : Type where
  | mk (name : String) (params : List Ty) (results : List Ty) (isPointer : Bool)

/-- Model of `Interface` in `type.go` (the standalone interface record used
inside `TypeConstraint`). -/
inductive GoInterface : Type where
  | mk (name : String) (methods : List (String × GoMethod))

/-- Model of `TypeConstraint` in `type.go`. -/
inductive GoConstraint : Type where
  | mk (interfaces : List GoInterface) (types : List Ty) (union : Bool)
      (isComparable : Bool) (isUnderlying : Bool) (builtinConstraint : String)

/-- Payload of `GenericType`: `Name`, `TypeParams`, `Constraints`, `Fields`,
and `Methods` (the method set consulted by `InstantiateGenericType` in
`infer.go`). -/
inductive GenericTy : Type where
  | mk (name : String) (typeParams : List Ty)
      (constraints : List (String × GoConstraint))
      (fields : List (String × Ty)) (methods : List (String × GoMethod))

end

/-- Heap address of a type node. -/
def Ty.addrOf : Ty → Nat
  | .tvar a _ => a
  | .tconst a _ => a
  | .fn a _ _ _ => a
  | .tuple a _ => a
  | .iface a _ _ _ _ => a
  | .ptr a _ => a
  | .strukt a _ _ _ => a
  | .slice a _ => a
  | .array a _ _ => a
  | .tmap a _ _ => a
  | .generic a _ => a
  | .alias a _ _ => a

def GenericTy.name : GenericTy → String
  | .mk n _ _ _ _ => n

def GenericTy.typeParams : GenericTy → List Ty
  | .mk _ tps _ _ _ => tps

def GenericTy.constraints : GenericTy → List (String × GoConstraint)
  | .mk _ _ cs _ _ => cs

def GenericTy.fields : GenericTy → List (String × Ty)
  | .mk _ _ _ fs _ => fs

def GenericTy.methods : GenericTy → List (String × GoMethod)
  | .mk _ _ _ _ ms => ms

def GoMethod.name : GoMethod → String
  | .mk n _ _ _ => n

def GoMethod.params : GoMethod → List Ty
  | .mk _ ps _ _ => ps

def GoMethod.results : GoMethod → List Ty
  | .mk _ _ rs _ => rs

def GoMethod.isPointer : GoMethod → Bool
  | .mk _ _ _ ip => ip

def GoInterface.name : GoInterface → String
  | .mk n _ => n

def GoInterface.methods : GoInterface → List (String × GoMethod)
  | .mk _ ms => ms

def GoConstraint.interfaces : GoConstraint → List GoInterface
  | .mk is _ _ _ _ _ => is

def GoConstraint.types : GoConstraint → List Ty
  | .mk _ ts _ _ _ _ => ts

def GoConstraint.isUnderlying : GoConstraint → Bool
  | .mk _ _ _ _ u _ => u

def GoConstraint.builtinConstraint : GoConstraint → String
  | .mk _ _ _ _ _ b => b

/-- Model of `TypeEnv` (`map[string]Type`): an association list looked up by
name. -/
def TypeEnv : Type := List (String × Ty)

/-- Generic association-list lookup, modelling a Go map read `m[k]`. -/
def alookup {α : Type} : List (String × α) → String → Option α
  | [], _ => none
  | (k, v) :: rest, n => if k == n then some v else alookup rest n

/-- Model of the Go map write `env[k] = v`.  The engine only ever writes a
key that is absent (the store in `unifyVar` is guarded by a failed lookup),
so prepending is faithful. -/
def envSet (env : TypeEnv) (k : String) (v : Ty) : TypeEnv :=
  (k, v) :: env

/-- Model of `resolve` (`unification.go`): follow type-variable bindings in
the environment until a non-variable or an unbound variable is reached.  The
Go loop diverges on a cyclic binding chain; `none` means fuel ran out. -/
def resolve : Nat → Ty → TypeEnv → Option Ty
  | 0, _, _ => none
  | fuel + 1, t, env =>
    match t with
    | .tvar a n =>
      match alookup env n with
      | some t2 => resolve fuel t2 env
      | none => some (.tvar a n)
    | t => some t

/-- Go pointer equality `v == t` between a `*TypeVariable` (given by address
and name) and a `Type` value: true only when `t` is the same variable node. -/
def sameVarPtr (vaddr : Nat) (vname : String) : Ty → Bool
  | .tvar a n => vaddr == a && vname == n
  | _ => false

mutual

/-- Model of `occurs` (`unification.go`): does variable `v` (address
`vaddr`, name `vname`) occur in `t`?  Only `TypeVariable` and `FunctionType`
are inspected; every other variant yields `false`. -/
def occurs : Nat → Nat → String → Ty → TypeEnv → Option Bool
  | 0, _, _, _, _ => none
  | fuel + 1, vaddr, vname, t, env =>
    match resolve fuel t env with
    | none => none
    | some t2 =>
      match t2 with
      | .tvar a n =>
        if sameVarPtr vaddr vname (.tvar a n) then some true
        else
          match alookup env n with
          | some r => occurs fuel vaddr vname r env
          | none => some false
      | .fn _ ps ret _ =>
        match occursList fuel vaddr vname ps env with
        | none => none
        | some true => some true
        | some false => occurs fuel vaddr vname ret env
      | _ => some false

/-- The `for _, paramType := range t.ParamTypes` loop inside `occurs`. -/
def occursList : Nat → Nat → String → List Ty → TypeEnv → Option Bool
  | 0, _, _, _, _ => none
  | _ + 1, _, _, [], _ => some false
  | fuel + 1, vaddr, vname, p :: ps, env =>
    match occurs fuel vaddr vname p env with
    | none => none
    | some true => some true
    | some false => occursList fuel vaddr vname ps env

end

/-- The error values of `unification.go`. -/
inductive UnifyErr : Type where
  | typeMismatch
  | arityMismatch
  | unknownType
  | circularReference
deriving DecidableEq

/-- Outcome of a call into the unifier: success, a returned error value, or a
runtime panic (`crash`) from a failing unchecked type assertion. -/
inductive URes : Type where
  | ok
  | err (e : UnifyErr)
  | crash
deriving DecidableEq

/-- Model of `isInterfaceAny` (`unification.go`): true exactly for an
`InterfaceType` whose `Name` is the literal string `"interface{}"`. -/
def isInterfaceAny : Ty → Bool
  | .iface _ name _ _ _ => name == "interface\x7b\x7d"
  | _ => false

mutual

/-- Model of `Unify` (`unification.go`, current revision): resolve both
sides, succeed if either side `isInterfaceAny`, then dispatch on the resolved
left side.  Variants without a `case` arm (`ArrayType`, `StructType`,
`TypeAlias`) fall through to `ErrUnknownType`; so does a `SliceType` whose
right side is not a slice, because that arm has no `else`.  The environment
is threaded through and returned alongside the outcome, mutations included
on failure (Go mutates the shared map in place). -/
def Unify : Nat → Ty → Ty → TypeEnv → Option (URes × TypeEnv)
  | 0, _, _, _ => none
  | fuel + 1, t1, t2, env =>
    match resolve fuel t1 env, resolve fuel t2 env with
    | some r1, some r2 =>
      if isInterfaceAny r1 || isInterfaceAny r2 then some (.ok, env)
      else
        match r1 with
        | .tvar a n => unifyVar fuel a n r2 env
        | .tconst _ n1 =>
          match r2 with
          | .tconst _ n2 =>
            if n1 == n2 then some (.ok, env) else some (.err .typeMismatch, env)
          | _ => some (.err .typeMismatch, env)
        | .fn _ ps1 ret1 var1 =>
          match r2 with
          | .fn _ ps2 ret2 var2 =>
            if var1 != var2 then some (.err .typeMismatch, env)
            else if ps1.length != ps2.length then some (.err .arityMismatch, env)
            else
              match unifyList fuel ps1 ps2 env with
              | none => none
              | some (.ok, env2) => Unify fuel ret1 ret2 env2
              | some (r, env2) => some (r, env2)
          | _ => some (.err .typeMismatch, env)
        | .tuple _ ts1 =>
          match r2 with
          | .tuple _ ts2 =>
            if ts1.length != ts2.length then some (.err .arityMismatch, env)
            else unifyList fuel ts1 ts2 env
          | _ => some (.err .typeMismatch, env)
        | .slice _ e1 =>
          match r2 with
          | .slice _ e2 => Unify fuel e1 e2 env
          | _ => some (.err .unknownType, env)
        | .generic _ g1 =>
          match r2 with
          | .generic _ g2 =>
            if g1.name != g2.name || g1.typeParams.length != g2.typeParams.length then
              some (.err .typeMismatch, env)
            else unifyList fuel g1.typeParams g2.typeParams env
          | _ => some (.err .typeMismatch, env)
        | .iface _a1 n1 ms1 emb1 empty1 =>
          if empty1 then some (.ok, env)
          else
            match r2 with
            | .iface a2 n2 ms2 emb2 empty2 =>
              if empty2 then some (.ok, env)
              else if n1 != n2 then some (.err .typeMismatch, env)
              else
                match unifyMethods fuel ms1 ms2 env with
                | none => none
                | some (.ok, env2) =>
                  unifyEmbedded fuel emb1 (.iface a2 n2 ms2 emb2 empty2) env2
                | some (r, env2) => some (r, env2)
            | _ => some (.crash, env)
        | .tmap _ k1 v1 =>
          match r2 with
          | .tmap _ k2 v2 =>
            match Unify fuel k1 k2 env with
            | none => none
            | some (.ok, env2) => Unify fuel v1 v2 env2
            | some (r, env2) => some (r, env2)
          | _ => some (.err .typeMismatch, env)
        | .ptr _ b1 =>
          match r2 with
          | .ptr _ b2 => Unify fuel b1 b2 env
          | _ => some (.err .typeMismatch, env)
        | _ => some (.err .unknownType, env)
    | _, _ => none

/-- Model of `unifyVar` (`unification.go`): the left side is the variable
with address `vaddr` and name `vname`.  Resolve `t`; succeed on pointer
equality; if the variable is bound, re-unify the binding against `t`; if `t`
is a bound variable, recurse on its binding; otherwise run the occurs check
and either fail with `CircularReference` or store the binding. -/
def unifyVar : Nat → Nat → String → Ty → TypeEnv → Option (URes × TypeEnv)
  | 0, _, _, _, _ => none
  | fuel + 1, vaddr, vname, t, env =>
    match resolve fuel t env with
    | none => none
    | some t2 =>
      if sameVarPtr vaddr vname t2 then some (.ok, env)
      else
        match alookup env vname with
        | some resolved => Unify fuel resolved t2 env
        | none =>
          match (match t2 with
                 | .tvar _ n2 => alookup env n2
                 | _ => none) with
          | some resolved2 => unifyVar fuel vaddr vname resolved2 env
          | none =>
            match occurs fuel vaddr vname t2 env with
            | none => none
            | some true => some (.err .circularReference, env)
            | some false => some (.ok, envSet env vname t2)

/-- Model of `unifyMethod` (`unification.go`): names and receiver kinds must
match, parameter and result counts must match, then the parameters are
unified pairwise.  (The source never unifies the result types.) -/
def unifyMethod : Nat → GoMethod → GoMethod → TypeEnv → Option (URes × TypeEnv)
  | 0, _, _, _ => none
  | fuel + 1, .mk n1 ps1 rs1 ip1, .mk n2 ps2 rs2 ip2, env =>
    if n1 != n2 || ip1 != ip2 then some (.err .typeMismatch, env)
    else if ps1.length != ps2.length || rs1.length != rs2.length then
      some (.err .arityMismatch, env)
    else unifyList fuel ps1 ps2 env

/-- Pairwise unification loops of `Unify` (function parameters, tuple
members, generic type parameters).  Arity is checked by the caller. -/
def unifyList : Nat → List Ty → List Ty → TypeEnv → Option (URes × TypeEnv)
  | 0, _, _, _ => none
  | _ + 1, [], _, env => some (.ok, env)
  | _ + 1, _ :: _, [], env => some (.ok, env)
  | fuel + 1, x :: xs, y :: ys, env =>
    match Unify fuel x y env with
    | none => none
    | some (.ok, env2) => unifyList fuel xs ys env2
    | some (r, env2) => some (r, env2)

/-- The `for name, method1 := range t1.Methods` loop of `Unify`'s interface
arm: every method on the left must exist by name on the right and unify. -/
def unifyMethods : Nat → List (String × GoMethod) → List (String × GoMethod) →
    TypeEnv → Option (URes × TypeEnv)
  | 0, _, _, _ => none
  | _ + 1, [], _, env => some (.ok, env)
  | fuel + 1, (name, m1) :: rest, ms2, env =>
    match alookup ms2 name with
    | none => some (.err .typeMismatch, env)
    | some m2 =>
      match unifyMethod fuel m1 m2 env with
      | none => none
      | some (.ok, env2) => unifyMethods fuel rest ms2 env2
      | some (r, env2) => some (r, env2)

/-- The `for _, embedded := range t1.Embedded` loop of `Unify`'s interface
arm: every embedded entry on the left is unified against the whole right
interface. -/
def unifyEmbedded : Nat → List Ty → Ty → TypeEnv → Option (URes × TypeEnv)
  | 0, _, _, _ => none
  | _ + 1, [], _, env => some (.ok, env)
  | fuel + 1, e :: rest, t2, env =>
    match Unify fuel e t2 env with
    | none => none
    | some (.ok, env2) => unifyEmbedded fuel rest t2 env2
    | some (r, env2) => some (r, env2)

end

mutual

/-- Model of `TypesEqual` (`constraint.go`): deep structural equality,
variant-aware.  Variables and constants compare by name; interfaces compare
`IsEmpty` and method-name presence only; structs compare name, field/method
counts, fields and methods. -/
def TypesEqual : Nat → Ty → Ty → Option Bool
  | 0, _, _ => none
  | fuel + 1, t1, t2 =>
    match t1 with
    | .tconst _ n1 =>
      match t2 with
      | .tconst _ n2 => some (n1 == n2)
      | _ => some false
    | .tvar _ n1 =>
      match t2 with
      | .tvar _ n2 => some (n1 == n2)
      | _ => some false
    | .fn _ ps1 ret1 v1 =>
      match t2 with
      | .fn _ ps2 ret2 v2 =>
        if ps1.length != ps2.length then some false
        else if v1 != v2 then some false
        else
          match typesEqualList fuel ps1 ps2 with
          | none => none
          | some false => some false
          | some true => TypesEqual fuel ret1 ret2
      | _ => some false
    | .tuple _ ts1 =>
      match t2 with
      | .tuple _ ts2 =>
        if ts1.length != ts2.length then some false
        else typesEqualList fuel ts1 ts2
      | _ => some false
    | .generic _ g1 =>
      match t2 with
      | .generic _ g2 =>
        if g1.name != g2.name || g1.typeParams.length != g2.typeParams.length then
          some false
        else typesEqualList fuel g1.typeParams g2.typeParams
      | _ => some false
    | .slice _ e1 =>
      match t2 with
      | .slice _ e2 => TypesEqual fuel e1 e2
      | _ => some false
    | .array _ e1 l1 =>
      match t2 with
      | .array _ e2 l2 =>
        if l1 != l2 then some false else TypesEqual fuel e1 e2
      | _ => some false
    | .iface _ _ ms1 _ empty1 =>
      match t2 with
      | .iface _ _ ms2 _ empty2 =>
        if empty1 && empty2 then some true
        else some (ms1.all fun p => (alookup ms2 p.1).isSome)
      | _ => some false
    | .strukt _ n1 fs1 ms1 =>
      match t2 with
      | .strukt _ n2 fs2 ms2 =>
        if n1 != n2 then some false
        else if fs1.length != fs2.length || ms1.length != ms2.length then some false
        else
          match fieldsEqual fuel fs1 fs2 with
          | none => none
          | some false => some false
          | some true => methodSetsEqual fuel ms1 ms2
      | _ => some false
    | .tmap _ k1 v1 =>
      match t2 with
      | .tmap _ k2 v2 =>
        match TypesEqual fuel k1 k2 with
        | none => none
        | some false => some false
        | some true => TypesEqual fuel v1 v2
      | _ => some false
    | .ptr _ b1 =>
      match t2 with
      | .ptr _ b2 => TypesEqual fuel b1 b2
      | _ => some false
    | .alias _ n1 to1 =>
      match t2 with
      | .alias _ n2 to2 =>
        if n1 != n2 then some false else TypesEqual fuel to1 to2
      | _ => some false

/-- Element-wise `TypesEqual` over two lists of equal length. -/
def typesEqualList : Nat → List Ty → List Ty → Option Bool
  | 0, _, _ => none
  | _ + 1, [], _ => some true
  | _ + 1, _ :: _, [] => some true
  | fuel + 1, x :: xs, y :: ys =>
    match TypesEqual fuel x y with
    | none => none
    | some false => some false
    | some true => typesEqualList fuel xs ys

/-- The `for name, fld1 := range t1.Fields` loop of `TypesEqual`'s struct
arm: every left field must exist by name on the right with an equal type. -/
def fieldsEqual : Nat → List (String × Ty) → List (String × Ty) → Option Bool
  | 0, _, _ => none
  | _ + 1, [], _ => some true
  | fuel + 1, (name, f1) :: rest, fs2 =>
    match alookup fs2 name with
    | none => some false
    | some f2 =>
      match TypesEqual fuel f1 f2 with
      | none => none
      | some false => some false
      | some true => fieldsEqual fuel rest fs2

/-- Model of `MethodsEqual` (`constraint.go`). -/
def MethodsEqual : Nat → GoMethod → GoMethod → Option Bool
  | 0, _, _ => none
  | fuel + 1, .mk n1 ps1 rs1 ip1, .mk n2 ps2 rs2 ip2 =>
    if n1 != n2 || ip1 != ip2 then some false
    else if ps1.length != ps2.length || rs1.length != rs2.length then some false
    else
      match typesEqualList fuel ps1 ps2 with
      | none => none
      | some false => some false
      | some true => typesEqualList fuel rs1 rs2

/-- The `for name, m1 := range t1.Methods` loop of `TypesEqual`'s struct
arm. -/
def methodSetsEqual : Nat → List (String × GoMethod) → List (String × GoMethod) →
    Option Bool
  | 0, _, _ => none
  | _ + 1, [], _ => some true
  | fuel + 1, (name, m1) :: rest, ms2 =>
    match alookup ms2 name with
    | none => some false
    | some m2 =>
      match MethodsEqual fuel m1 m2 with
      | none => none
      | some false => some false
      | some true => methodSetsEqual fuel rest ms2

end

/-- Modelled from the spec: the primitive type-name constants (`TypeInt`,
`TypeString`, `TypeFloat64`, ...) used by `constraint.go` are declared in a
file not present under `src/`; the spec's builtin predicate table fixes their
values to the Go primitive names. -/
def signedIntegers : List String := ["int", "int8", "int16", "int32", "int64"]

def unsignedIntegers : List String :=
  ["uint", "uint8", "uint16", "uint32", "uint64", "uintptr"]

def floats : List String := ["float32", "float64"]

def complexes : List String := ["complex64", "complex128"]

def orderedTypes : List String := ["string"]

/-- Model of `isOrdered` (`constraint.go`). -/
def isOrdered : Ty → Bool
  | .tconst _ n =>
    signedIntegers.contains n || unsignedIntegers.contains n ||
      floats.contains n || orderedTypes.contains n
  | _ => false

/-- Model of `isComplex` (`constraint.go`). -/
def isComplex : Ty → Bool
  | .tconst _ n => complexes.contains n
  | _ => false

/-- Model of `isFloat` (`constraint.go`). -/
def isFloat : Ty → Bool
  | .tconst _ n => floats.contains n
  | _ => false

/-- Model of `isInteger` (`constraint.go`). -/
def isInteger : Ty → Bool
  | .tconst _ n => signedIntegers.contains n || unsignedIntegers.contains n
  | _ => false

/-- Model of `isSigned` (`constraint.go`). -/
def isSigned : Ty → Bool
  | .tconst _ n => signedIntegers.contains n
  | _ => false

/-- Model of `isUnsigned` (`constraint.go`). -/
def isUnsigned : Ty → Bool
  | .tconst _ n => unsignedIntegers.contains n
  | _ => false

/-- Model of `isNumeric` (`constraint.go`). -/
def isNumeric (t : Ty) : Bool :=
  isInteger t || isFloat t || isComplex t

mutual

/-- Model of `isComparable` (`constraint.go`): primitives that are bool,
numeric or string; all pointers and interfaces; structs whose every field is
comparable; arrays with comparable elements. -/
def isComparable : Nat → Ty → Option Bool
  | 0, _ => none
  | fuel + 1, t =>
    match t with
    | .tconst a n =>
      some (n == "bool" || isNumeric (.tconst a n) || n == "string")
    | .ptr _ _ => some true
    | .iface _ _ _ _ _ => some true
    | .strukt _ _ fs _ => fieldsComparable fuel fs
    | .array _ e _ => isComparable fuel e
    | _ => some false

/-- The `for _, field := range t.Fields` loop of `isComparable`. -/
def fieldsComparable : Nat → List (String × Ty) → Option Bool
  | 0, _ => none
  | _ + 1, [] => some true
  | fuel + 1, (_, f) :: rest =>
    match isComparable fuel f with
    | none => none
    | some false => some false
    | some true => fieldsComparable fuel rest

end

/-- Model of `checkBuiltinConstraint` (`constraint.go`).  Modelled from the
spec: the constraint-name constants (`ConstraintAny`, `ConstraintComparable`,
...) are declared in a file not present under `src/`; the spec fixes them to
the Go builtin constraint names. -/
def checkBuiltinConstraint (fuel : Nat) (t : Ty) (c : String) : Option Bool :=
  if c == "any" then some true
  else if c == "comparable" then isComparable fuel t
  else if c == "ordered" then some (isOrdered t)
  else if c == "complex" then some (isComplex t)
  else if c == "float" then some (isFloat t)
  else if c == "integer" then some (isInteger t)
  else if c == "signed" then some (isSigned t)
  else if c == "unsigned" then some (isUnsigned t)
  else some false

/-- Model of `checkPrimitiveTypeInterface` (`constraint.go`): the fixed
table mapping primitive names to the interfaces they are deemed to satisfy. -/
def checkPrimitiveTypeInterface (tName : String) (iface : GoInterface) : Bool :=
  let interfaces :=
    if tName == "int" then ["Stringer", "Printable", "Comparable"]
    else if tName == "string" then ["Printable", "Comparable"]
    else if tName == "float64" then ["Stringer", "Printable", "Comparable"]
    else []
  interfaces.contains iface.name

/-- Model of `typeContainsAllMethods` (`constraint.go`): every method name
declared by `iface` must be present in the holder's method set. -/
def typeContainsAllMethods (ms : List (String × GoMethod)) (iface : GoInterface) : Bool :=
  iface.methods.all fun p => (alookup ms p.1).isSome

/-- Model of `implInterface` (`constraint.go`).  Modelled from the spec for
the `MethodHolder` arm: the `MethodHolder` interface and its `GetMethods`
implementations are declared in a file not present under `src/`; per the
spec, the types exposing a method set are `Struct` and `Interface`. -/
def implInterface (t : Ty) (iface : GoInterface) : Bool :=
  match t with
  | .tconst _ n => checkPrimitiveTypeInterface n iface
  | .generic _ _ => true
  | .fn _ _ _ _ => false
  | .strukt _ _ _ ms => typeContainsAllMethods ms iface
  | .iface _ _ ms _ _ => typeContainsAllMethods ms iface
  | _ => false

mutual

/-- Model of `isUnderlyingType` (`constraint.go`): fully unwrap `TypeAlias`
layers on the left, then compare structurally against the underlying type. -/
def isUnderlyingType : Nat → Ty → Ty → Option Bool
  | 0, _, _ => none
  | fuel + 1, t, u =>
    match t with
    | .alias _ _ target => isUnderlyingType fuel target u
    | .tconst _ n =>
      match u with
      | .tconst _ n2 => some (n == n2)
      | _ => some false
    | .slice _ e =>
      match u with
      | .slice _ e2 => isUnderlyingType fuel e e2
      | _ => some false
    | .tmap _ k v =>
      match u with
      | .tmap _ k2 v2 =>
        match isUnderlyingType fuel k k2 with
        | none => none
        | some false => some false
        | some true => isUnderlyingType fuel v v2
      | _ => some false
    | .strukt _ _ fs _ =>
      match u with
      | .strukt _ _ fs2 _ =>
        if fs.length != fs2.length then some false
        else underlyingFields fuel fs fs2
      | _ => some false
    | .fn _ ps ret _ =>
      match u with
      | .fn _ ps2 ret2 _ =>
        if ps.length != ps2.length then some false
        else
          match underlyingList fuel ps ps2 with
          | none => none
          | some false => some false
          | some true => isUnderlyingType fuel ret ret2
      | _ => some false
    | _ => some false

/-- The field loop of `isUnderlyingType`'s struct arm. -/
def underlyingFields : Nat → List (String × Ty) → List (String × Ty) → Option Bool
  | 0, _, _ => none
  | _ + 1, [], _ => some true
  | fuel + 1, (name, f) :: rest, fs2 =>
    match alookup fs2 name with
    | none => some false
    | some f2 =>
      match isUnderlyingType fuel f f2 with
      | none => none
      | some false => some false
      | some true => underlyingFields fuel rest fs2

/-- The parameter loop of `isUnderlyingType`'s function arm. -/
def underlyingList : Nat → List Ty → List Ty → Option Bool
  | 0, _, _ => none
  | _ + 1, [], _ => some true
  | _ + 1, _ :: _, [] => some true
  | fuel + 1, x :: xs, y :: ys =>
    match isUnderlyingType fuel x y with
    | none => none
    | some false => some false
    | some true => underlyingList fuel xs ys

end

/-- The pointer shortcut loop of `checkConstraint`: succeed if some allowed
type is itself a pointer whose base equals `base`. -/
def ptrAllowedMatch : Nat → Ty → List Ty → Option Bool
  | 0, _, _ => none
  | _ + 1, _, [] => some false
  | fuel + 1, base, allowed :: rest =>
    match allowed with
    | .ptr _ base2 =>
      match TypesEqual fuel base base2 with
      | none => none
      | some true => some true
      | some false => ptrAllowedMatch fuel base rest
    | _ => ptrAllowedMatch fuel base rest

/-- The allowed-types loop of `checkConstraint`: `t` must equal (or, when
`isUnderlying`, have the underlying type of) some allowed type. -/
def allowedTypesMatch : Nat → Ty → List Ty → Bool → Option Bool
  | 0, _, _, _ => none
  | _ + 1, _, [], _ => some false
  | fuel + 1, t, allowed :: rest, isU =>
    match (if isU then isUnderlyingType fuel t allowed else TypesEqual fuel t allowed) with
    | none => none
    | some true => some true
    | some false => allowedTypesMatch fuel t rest isU

/-- Model of `checkConstraint` (`constraint.go`): type variables always
satisfy; a builtin constraint dispatches to the predicate table; a pointer
first tries the pointer shortcut against the allowed types and otherwise
recurses on its base; otherwise every required interface must be implemented
and, when allowed types are present, at least one must match. -/
def checkConstraint : Nat → Ty → GoConstraint → Option Bool
  | 0, _, _ => none
  | fuel + 1, t, c =>
    match t with
    | .tvar _ _ => some true
    | t =>
      if c.builtinConstraint != "" then checkBuiltinConstraint fuel t c.builtinConstraint
      else
        match t with
        | .ptr _ base =>
          match ptrAllowedMatch fuel base c.types with
          | none => none
          | some true => some true
          | some false => checkConstraint fuel base c
        | t =>
          if !(c.interfaces.all fun iface => implInterface t iface) then some false
          else if c.types.length > 0 then allowedTypesMatch fuel t c.types c.isUnderlying
          else some true

/-- The visited set of `TypeVisitor` (`type.go`): Go keys it by
`fmt.Sprintf("%p", t)`, the node's pointer, modelled as the list of visited
addresses.  `NewTypeVisitor()` is the empty list. -/
def Visitor : Type := List Nat

mutual

/-- Model of `substituteTypeParams` (`infer.go`): mark `t` visited (return it
unchanged when already visited); replace a `TypeVariable` matching a `from`
parameter by the corresponding `to` type; rebuild `GenericType`, `SliceType`,
`MapType` and `FunctionType` recursively; pass every other variant through.
The `GenericType` arm reproduces the source faithfully: it computes
substituted fields into `newFld` but the node it returns carries the
*original* `Fields` map (`Fields: t.Fields`), discarding `newFld`.
Go allocates a fresh node for each rebuilt container; the model reuses the
input node's address, which no modelled function consults on constructed
output. -/
def substituteTypeParams : Nat → Ty → List Ty → List Ty → Visitor →
    Option (Ty × Visitor)
  | 0, _, _, _, _ => none
  | fuel + 1, t, tfrom, tto, visited =>
    if visited.contains t.addrOf then some (t, visited)
    else
      let visited2 := t.addrOf :: visited
      match t with
      | .tvar a n =>
        match substParamLookup fuel (.tvar a n) tfrom tto with
        | none => none
        | some (some r) => some (r, visited2)
        | some none => some (.tvar a n, visited2)
      | .generic a g =>
        match substList fuel g.typeParams tfrom tto visited2 with
        | none => none
        | some (newParams, v3) =>
          match substFields fuel g.fields tfrom tto v3 with
          | none => none
          | some (_newFld, v4) =>
            some (.generic a (.mk g.name newParams g.constraints g.fields g.methods), v4)
      | .slice a e =>
        match substituteTypeParams fuel e tfrom tto visited2 with
        | none => none
        | some (e2, v3) => some (.slice a e2, v3)
      | .tmap a k v =>
        match substituteTypeParams fuel k tfrom tto visited2 with
        | none => none
        | some (k2, v3) =>
          match substituteTypeParams fuel v tfrom tto v3 with
          | none => none
          | some (v2, v4) => some (.tmap a k2 v2, v4)
      | .fn a ps ret variadic =>
        match substList fuel ps tfrom tto visited2 with
        | none => none
        | some (ps2, v3) =>
          match substituteTypeParams fuel ret tfrom tto v3 with
          | none => none
          | some (ret2, v4) => some (.fn a ps2 ret2 variadic, v4)
      | t => some (t, visited2)

/-- The `for i, param := range from` loop of `substituteTypeParams`'s
`TypeVariable` arm: return the `to` entry matching `t` by `TypesEqual`, if
any.  Call sites keep `from` and `to` the same length. -/
def substParamLookup : Nat → Ty → List Ty → List Ty → Option (Option Ty)
  | 0, _, _, _ => none
  | _ + 1, _, [], _ => some none
  | _ + 1, _, _ :: _, [] => some none
  | fuel + 1, t, p :: ps, r :: rs =>
    match TypesEqual fuel t p with
    | none => none
    | some true => some (some r)
    | some false => substParamLookup fuel t ps rs

/-- Model of `substituteTypeParamsInSlice` (`infer.go`) and of the element
loops inside `substituteTypeParams`, threading the shared visitor. -/
def substList : Nat → List Ty → List Ty → List Ty → Visitor →
    Option (List Ty × Visitor)
  | 0, _, _, _, _ => none
  | _ + 1, [], _, _, visited => some ([], visited)
  | fuel + 1, t :: ts, tfrom, tto, visited =>
    match substituteTypeParams fuel t tfrom tto visited with
    | none => none
    | some (t2, v2) =>
      match substList fuel ts tfrom tto v2 with
      | none => none
      | some (ts2, v3) => some (t2 :: ts2, v3)

/-- The field-map substitution loops (`for name, typ := range t.Fields`),
threading the shared visitor. -/
def substFields : Nat → List (String × Ty) → List Ty → List Ty → Visitor →
    Option (List (String × Ty) × Visitor)
  | 0, _, _, _, _ => none
  | _ + 1, [], _, _, visited => some ([], visited)
  | fuel + 1, (name, t) :: fs, tfrom, tto, visited =>
    match substituteTypeParams fuel t tfrom tto visited with
    | none => none
    | some (t2, v2) =>
      match substFields fuel fs tfrom tto v2 with
      | none => none
      | some (fs2, v3) => some ((name, t2) :: fs2, v3)

end

/-- Infer-driver errors reachable from the modelled node kinds. -/
inductive InferErr : Type where
  | unknownIdent (name : String)
deriving DecidableEq

/-- The expression subset of the Go AST the formalised claims evaluate:
`*ast.Ident` nodes.  Index/instantiation and return statements are modelled
as dedicated functions over this subset. -/
inductive AExpr : Type where
  | ident (name : String)

/-- Model of `InferenceContext` (`context.go`). -/
structure InferenceContext : Type where
  expectedType : Option Ty := none
  isAssignment : Bool := false
  isFunctionArg : Bool := false
  isReturnValue : Bool := false

/-- Model of `InferType` / `inferTypeInternal` (`infer.go`) restricted to the
`*ast.Ident` arm, the only expression kind the formalised claims evaluate:
look the name up in the environment, unwrap a `TypeAlias` transparently, and
fail with "unknown identifier" otherwise.  The context is threaded for
signature fidelity; the identifier arm never reads it. -/
def InferType (e : AExpr) (env : TypeEnv) (_ctx : InferenceContext) : Except InferErr Ty :=
  match e with
  | .ident n =>
    match alookup env n with
    | some (.alias _ _ aliased) => .ok aliased
    | some t => .ok t
    | none => .error (.unknownIdent n)

/-- A type argument handed to `InstantiateGenericType`: the Go parameter is
`[]interface{}` holding either an `ast.Expr` or an already-resolved `Type`. -/
inductive TypeArg : Type where
  | expr (e : AExpr)
  | typ (t : Ty)

/-- Results of the modelled `infer.go` entry points. -/
inductive IRes : Type where
  | ok (t : Ty)
  | errUnknownIdent (name : String)
  | errNotAGenericType
  | errTypeArgsArity (want got : Nat)
  | errConstraint (param : String)
  | errIndexCount (want got : Nat)
  | crash

/-- The per-argument loop of `InstantiateGenericType`: resolve each argument
(an `ast.Expr` is inferred, a `Type` is taken as-is), then check it against
the constraint registered for the matching type parameter.  Reading the
constraint performs the unchecked assertion
`gt.TypeParams[i].(*TypeVariable).Name`, which panics when the parameter is
not a variable. -/
def resolveTypeArgs : Nat → List Ty → List (String × GoConstraint) → List TypeArg →
    TypeEnv → Option (IRes ⊕ List Ty)
  | 0, _, _, _, _ => none
  | _ + 1, [], _, [], _ => some (.inr [])
  | _ + 1, [], _, _ :: _, _ => some (.inr [])
  | _ + 1, _ :: _, _, [], _ => some (.inr [])
  | fuel + 1, p :: ps, cs, a :: args, env =>
    let argType? : Except InferErr Ty :=
      match a with
      | .expr e => InferType e env { expectedType := some p }
      | .typ t => .ok t
    match argType? with
    | .error (.unknownIdent n) => some (.inl (.errUnknownIdent n))
    | .ok argType =>
      match p with
      | .tvar _ pname =>
        match alookup cs pname with
        | some c =>
          match checkConstraint fuel argType c with
          | none => none
          | some false => some (.inl (.errConstraint pname))
          | some true =>
            match resolveTypeArgs fuel ps cs args env with
            | none => none
            | some (.inl e) => some (.inl e)
            | some (.inr rest) => some (.inr (argType :: rest))
        | none =>
          match resolveTypeArgs fuel ps cs args env with
          | none => none
          | some (.inl e) => some (.inl e)
          | some (.inr rest) => some (.inr (argType :: rest))
      | _ => some (.inl .crash)

/-- The method-instantiation loop of `InstantiateGenericType`: substitute
into each method's parameter and result lists, threading the shared
visitor. -/
def instantiateMethods : Nat → List (String × GoMethod) → List Ty → List Ty →
    Visitor → Option (List (String × GoMethod) × Visitor)
  | 0, _, _, _, _ => none
  | _ + 1, [], _, _, visited => some ([], visited)
  | fuel + 1, (name, .mk mn mps mrs mip) :: ms, tfrom, tto, visited =>
    match substList fuel mps tfrom tto visited with
    | none => none
    | some (mps2, v2) =>
      match substList fuel mrs tfrom tto v2 with
      | none => none
      | some (mrs2, v3) =>
        match instantiateMethods fuel ms tfrom tto v3 with
        | none => none
        | some (ms2, v4) => some ((name, .mk mn mps2 mrs2 mip) :: ms2, v4)

/-- Model of `InstantiateGenericType` (`infer.go`): check the argument count
against the type-parameter count, resolve and constraint-check each argument,
then build a new `GenericType` whose type parameters are the resolved
arguments and whose fields and methods are rewritten through
`substituteTypeParams` with one fresh visitor shared across the whole call.
The freshly allocated result node is given address `0` by the model; the Go
result has a nil `Constraints` map, modelled as `[]`. -/
def InstantiateGenericType (fuel : Nat) (gt : GenericTy) (typeArgs : List TypeArg)
    (env : TypeEnv) : Option IRes :=
  match fuel with
  | 0 => none
  | fuel + 1 =>
    if gt.typeParams.length != typeArgs.length then
      some (.errTypeArgsArity gt.typeParams.length typeArgs.length)
    else
      match resolveTypeArgs fuel gt.typeParams gt.constraints typeArgs env with
      | none => none
      | some (.inl e) => some e
      | some (.inr resolved) =>
        match substFields fuel gt.fields gt.typeParams resolved [] with
        | none => none
        | some (newFields, v2) =>
          match instantiateMethods fuel gt.methods gt.typeParams resolved v2 with
          | none => none
          | some (newMethods, _) =>
            some (.ok (.generic 0 (.mk gt.name resolved [] newFields newMethods)))

/-- Model of the `*ast.IndexExpr` arm of `inferTypeInternal` (`infer.go`):
infer the base, require a `GenericType`, then build a type-argument list by
replicating the single index expression once per type parameter (`typeArgs[i]
= expr.Index` for every `i`) and delegate to `InstantiateGenericType`.  No
index-count check is performed in this arm. -/
def inferIndexExpr (fuel : Nat) (x : AExpr) (index : AExpr) (env : TypeEnv) :
    Option IRes :=
  match InferType x env {} with
  | .error (.unknownIdent n) => some (.errUnknownIdent n)
  | .ok baseType =>
    match baseType with
    | .generic _ g =>
      InstantiateGenericType fuel g
        (List.replicate g.typeParams.length (.expr index)) env
    | _ => some .errNotAGenericType

/-- Model of the `*ast.IndexListExpr` arm of `inferTypeInternal`
(`infer.go`): infer the base, require a `GenericType`, require the index
count to equal the type-parameter count (else the "expected %d type
parameters, got %d" error), and delegate to `InstantiateGenericType`. -/
def inferIndexListExpr (fuel : Nat) (x : AExpr) (indices : List AExpr)
    (env : TypeEnv) : Option IRes :=
  match InferType x env {} with
  | .error (.unknownIdent n) => some (.errUnknownIdent n)
  | .ok baseType =>
    match baseType with
    | .generic _ g =>
      if indices.length != g.typeParams.length then
        some (.errIndexCount g.typeParams.length indices.length)
      else InstantiateGenericType fuel g (indices.map .expr) env
    | _ => some .errNotAGenericType

/-- Model of `checkReturnType` (`infer.go`): infer the return expression
with its slot as expected type; when inference fails the source executes
`return nil`, discarding the error; otherwise unify the slot against the
inferred type. -/
def checkReturnType (fuel : Nat) (result : AExpr) (expectedType : Ty)
    (env : TypeEnv) : Option (URes × TypeEnv) :=
  match InferType result env { expectedType := some expectedType, isReturnValue := true } with
  | .error _ => some (.ok, env)
  | .ok resultType => Unify fuel expectedType resultType env

/-- Outcome of the `*ast.ReturnStmt` arm. -/
inductive RetRes : Type where
  | ok
  | errOutsideFunction
  | errNotFunctionCtx
  | errReturnArity (want got : Nat)
  | errResultMismatch (idx : Nat) (e : UnifyErr)
  | crash

/-- The `for i, result := range expr.Results` loop of the `*ast.ReturnStmt`
arm: the first failing `checkReturnType` aborts with a "return type mismatch
for result i" error. -/
def checkReturnResults (fuel : Nat) : Nat → List AExpr → List Ty → TypeEnv →
    Option (RetRes × TypeEnv)
  | _, [], _, env => some (.ok, env)
  | _, _ :: _, [], env => some (.ok, env)
  | idx, r :: rs, s :: ss, env =>
    match checkReturnType fuel r s env with
    | none => none
    | some (.ok, env2) => checkReturnResults fuel (idx + 1) rs ss env2
    | some (.err e, env2) => some (.errResultMismatch idx e, env2)
    | some (.crash, env2) => some (.crash, env2)

/-- Model of the `*ast.ReturnStmt` arm of `inferTypeInternal` (`infer.go`):
the context's expected type must be a `FunctionType`; its return type is
split into a slot list (a `Tuple`'s members, or a one-element list); the
result count must equal the slot count; then each result expression goes
through `checkReturnType`. -/
def inferReturnStmt (fuel : Nat) (ctx : InferenceContext) (results : List AExpr)
    (env : TypeEnv) : Option (RetRes × TypeEnv) :=
  match ctx.expectedType with
  | none => some (.errOutsideFunction, env)
  | some t =>
    match t with
    | .fn _ _ retTy _ =>
      let expectedSlots :=
        match retTy with
        | .tuple _ ts => ts
        | r => [r]
      if results.length != expectedSlots.length then
        some (.errReturnArity expectedSlots.length results.length, env)
      else checkReturnResults fuel 0 results expectedSlots env
    | _ => some (.errNotFunctionCtx, env)

/-! ## Auxiliary definitions used by the verification -/

def Ty.isTVar : Ty → Bool
  | .tvar _ _ => true
  | _ => false

def Ty.isFn : Ty → Bool
  | .fn _ _ _ _ => true
  | _ => false

/-- Every binding present in `env` is still present, unchanged, in `env2`. -/
def envPreserves (env env2 : TypeEnv) : Prop :=
  ∀ n T, alookup env n = some T → alookup env2 n = some T

/-- Variable-free types on which `Unify` is reflexive: everything except
`ArrayType`, `StructType`, `TypeAlias`, type variables, and interfaces with
embedded entries or duplicate method keys. -/
inductive ReflOk : Ty → Prop where
  | tconst : ReflOk (.tconst a n)
  | fn : (∀ t ∈ ps, ReflOk t) → ReflOk ret → ReflOk (.fn a ps ret v)
  | tuple : (∀ t ∈ ts, ReflOk t) → ReflOk (.tuple a ts)
  | slice : ReflOk e → ReflOk (.slice a e)
  | generic : (∀ t ∈ tps, ReflOk t) →
      ReflOk (.generic a (.mk n tps cs fs ms))
  | tmap : ReflOk k → ReflOk v → ReflOk (.tmap a k v)
  | ptr : ReflOk b → ReflOk (.ptr a b)
  | ifaceEmpty : ReflOk (.iface a n ms emb true)
  | iface : (ms.map Prod.fst).Nodup →
      (∀ p ∈ ms, ∀ t ∈ (Prod.snd p).params, ReflOk t) →
      ReflOk (.iface a n ms [] false)

/-- The spec's `Box` example: `Generic("Box", [T], {T: {allowedTypes:[int]}})`
with a `T`-typed field and a `T`-returning method. -/
def boxGeneric : GenericTy :=
  .mk "Box" [.tvar 1 "T"] [("T", .mk [] [.tconst 2 "int"] false false false "")]
    [("value", .tvar 3 "T")] [("get", .mk "get" [] [.tvar 4 "T"] false)]

/-- An environment holding a two-parameter generic `Pair[K, V]` and `int`. -/
def pairEnv : TypeEnv :=
  [("Pair", .generic 5 (.mk "Pair" [.tvar 7 "K", .tvar 8 "V"] []
      [("first", .tvar 9 "K"), ("second", .tvar 10 "V")] [])),
   ("int", .tconst 6 "int")]

/-! ## Environment preservation

The only write into the environment anywhere in the unifier is the store in
`unifyVar`, and it is guarded by a failed lookup, so an existing binding can
never be overwritten.  The following lemmas prove this for the whole
cluster. -/

theorem envPreserves_refl (env : TypeEnv) : envPreserves env env :=
  fun _ _ h => h

theorem envPreserves_trans {a b c : TypeEnv}
    (h1 : envPreserves a b) (h2 : envPreserves b c) : envPreserves a c :=
  fun n T h => h2 n T (h1 n T h)

theorem envSet_preserves {env : TypeEnv} {k : String} {v : Ty}
    (hk : alookup env k = none) : envPreserves env (envSet env k v) := by
  intro n T h
  have hne : (k == n) = false := by
    by_contra hcontra
    have : k = n := by
      cases hkk : k == n with
      | false => exact absurd hkk hcontra
      | true => exact eq_of_beq hkk
    rw [this] at hk
    rw [hk] at h
    exact Option.noConfusion h
  simpa [envSet, alookup, hne] using h

/-- Bindings survive every call into the unifier cluster: whatever the
outcome, the returned environment preserves every binding of the input
environment. -/
theorem unify_preserves : ∀ fuel : Nat,
    (∀ t1 t2 env r env2, Unify fuel t1 t2 env = some (r, env2) →
      envPreserves env env2)
  ∧ (∀ va vn t env r env2, unifyVar fuel va vn t env = some (r, env2) →
      envPreserves env env2)
  ∧ (∀ xs ys env r env2, unifyList fuel xs ys env = some (r, env2) →
      envPreserves env env2)
  ∧ (∀ m1 m2 env r env2, unifyMethod fuel m1 m2 env = some (r, env2) →
      envPreserves env env2)
  ∧ (∀ ms1 ms2 env r env2, unifyMethods fuel ms1 ms2 env = some (r, env2) →
      envPreserves env env2)
  ∧ (∀ es t2 env r env2, unifyEmbedded fuel es t2 env = some (r, env2) →
      envPreserves env env2) := by
  intro fuel
  induction fuel with
  | zero =>
    refine ⟨?_, ?_, ?_, ?_, ?_, ?_⟩ <;> intros <;>
      simp_all [Unify, unifyVar, unifyList, unifyMethod, unifyMethods, unifyEmbedded]
  | succ n ih =>
    obtain ⟨ihU, ihV, ihL, ihM, ihMs, ihE⟩ := ih
    refine ⟨?_, ?_, ?_, ?_, ?_, ?_⟩
    case _ =>
      intro t1 t2 env r env2 h
      rw [Unify] at h
      repeat' split at h
      all_goals first
        | exact Option.noConfusion h
        | exact ihU _ _ _ _ _ h
        | exact ihV _ _ _ _ _ _ h
        | exact ihL _ _ _ _ _ h
        | exact envPreserves_trans (ihL _ _ _ _ _ (by assumption)) (ihU _ _ _ _ _ h)
        | exact envPreserves_trans (ihU _ _ _ _ _ (by assumption)) (ihU _ _ _ _ _ h)
        | exact envPreserves_trans (ihMs _ _ _ _ _ (by assumption)) (ihE _ _ _ _ _ h)
        | (injection h with h1
           injection h1 with hr he
           subst he
           first
             | exact envPreserves_refl _
             | exact ihU _ _ _ _ _ (by assumption)
             | exact ihL _ _ _ _ _ (by assumption)
             | exact ihMs _ _ _ _ _ (by assumption))
    case _ =>
      intro va vn t env r env2 h
      rw [unifyVar] at h
      repeat' split at h
      all_goals first
        | exact Option.noConfusion h
        | exact ihU _ _ _ _ _ h
        | exact ihV _ _ _ _ _ _ h
        | (injection h with h1
           injection h1 with hr he
           subst he
           first
             | exact envPreserves_refl _
             | exact envSet_preserves (by assumption))
    case _ =>
      intro xs ys env r env2 h
      rcases xs with _ | ⟨x, xs⟩
      · rw [unifyList] at h
        injection h with h1
        injection h1 with hr he
        subst he
        exact envPreserves_refl _
      rcases ys with _ | ⟨y, ys⟩
      · rw [unifyList] at h
        injection h with h1
        injection h1 with hr he
        subst he
        exact envPreserves_refl _
      rw [unifyList] at h
      repeat' split at h
      all_goals first
        | exact Option.noConfusion h
        | exact envPreserves_trans (ihU _ _ _ _ _ (by assumption)) (ihL _ _ _ _ _ h)
        | (injection h with h1
           injection h1 with hr he
           subst he
           first
             | exact envPreserves_refl _
             | exact ihU _ _ _ _ _ (by assumption))
    case _ =>
      intro m1 m2 env r env2 h
      cases m1
      cases m2
      rw [unifyMethod] at h
      repeat' split at h
      all_goals first
        | exact Option.noConfusion h
        | exact ihL _ _ _ _ _ h
        | (injection h with h1
           injection h1 with hr he
           subst he
           exact envPreserves_refl _)
    case _ =>
      intro ms1 ms2 env r env2 h
      rcases ms1 with _ | ⟨⟨name, m1⟩, rest⟩
      · rw [unifyMethods] at h
        injection h with h1
        injection h1 with hr he
        subst he
        exact envPreserves_refl _
      rw [unifyMethods] at h
      repeat' split at h
      all_goals first
        | exact Option.noConfusion h
        | exact envPreserves_trans (ihM _ _ _ _ _ (by assumption)) (ihMs _ _ _ _ _ h)
        | (injection h with h1
           injection h1 with hr he
           subst he
           first
             | exact envPreserves_refl _
             | exact ihM _ _ _ _ _ (by assumption))
    case _ =>
      intro es t2 env r env2 h
      rcases es with _ | ⟨e, rest⟩
      · rw [unifyEmbedded] at h
        injection h with h1
        injection h1 with hr he
        subst he
        exact envPreserves_refl _
      rw [unifyEmbedded] at h
      repeat' split at h
      all_goals first
        | exact Option.noConfusion h
        | exact envPreserves_trans (ihU _ _ _ _ _ (by assumption)) (ihE _ _ _ _ _ h)
        | (injection h with h1
           injection h1 with hr he
           subst he
           first
             | exact envPreserves_refl _
             | exact ihU _ _ _ _ _ (by assumption))

/-! ## Reflexivity of `Unify`

`Unify(a, a, env)` succeeds for the variants the `switch` in `Unify`
handles, but *not* for `ArrayType`, `StructType` or `TypeAlias` (no `case`
arm: `ErrUnknownType`) and not for an interface with embedded entries (each
embedded entry is unified against the whole interface and mismatches).
`ReflOk` captures the variable-free types built from the handled variants. -/

theorem resolve_nonvar {f : Nat} {t : Ty} {env : TypeEnv} (hf : 1 ≤ f)
    (ht : t.isTVar = false) : resolve f t env = some t := by
  obtain ⟨f, rfl⟩ : ∃ g, f = g + 1 := ⟨f - 1, by omega⟩
  cases t <;> simp [resolve, Ty.isTVar] at ht ⊢

theorem alookup_self {α : Type} :
    ∀ (ms : List (String × α)), (ms.map Prod.fst).Nodup →
      ∀ p ∈ ms, alookup ms p.1 = some p.2 := by
  intro ms
  induction ms with
  | nil => intro _ p hp; cases hp
  | cons hd rest ihr =>
    intro hnodup p hp
    rw [List.map_cons, List.nodup_cons] at hnodup
    rcases List.mem_cons.mp hp with rfl | hp
    · simp [alookup]
    · have hne : (hd.1 == p.1) = false := by
        have : hd.1 ≠ p.1 := by
          intro hcontra
          exact hnodup.1 (hcontra ▸ List.mem_map_of_mem Prod.fst hp)
        simpa using this
      simp only [alookup, hne]
      exact ihr hnodup.2 p hp

theorem unifyList_refl (ts : List Ty)
    (h : ∀ t ∈ ts, ∀ env, ∃ N, ∀ f, N ≤ f → Unify f t t env = some (.ok, env)) :
    ∀ env, ∃ N, ∀ f, N ≤ f → unifyList f ts ts env = some (.ok, env) := by
  induction ts with
  | nil =>
    intro env
    refine ⟨1, fun f hf => ?_⟩
    obtain ⟨f, rfl⟩ : ∃ g, f = g + 1 := ⟨f - 1, by omega⟩
    rw [unifyList]
  | cons x xs ihx =>
    intro env
    obtain ⟨N1, h1⟩ := h x (List.mem_cons_self x xs) env
    obtain ⟨N2, h2⟩ := ihx (fun t ht => h t (List.mem_cons_of_mem x ht)) env
    refine ⟨N1 + N2 + 1, fun f hf => ?_⟩
    obtain ⟨f, rfl⟩ : ∃ g, f = g + 1 := ⟨f - 1, by omega⟩
    have hx : Unify f x x env = some (.ok, env) := h1 f (by omega)
    rw [unifyList]
    simp only [hx]
    exact h2 f (by omega)

theorem unifyMethod_refl (m : GoMethod)
    (hp : ∀ env, ∃ N, ∀ f, N ≤ f → unifyList f m.params m.params env = some (.ok, env)) :
    ∀ env, ∃ N, ∀ f, N ≤ f → unifyMethod f m m env = some (.ok, env) := by
  intro env
  obtain ⟨N1, h1⟩ := hp env
  refine ⟨N1 + 1, fun f hf => ?_⟩
  obtain ⟨f, rfl⟩ : ∃ g, f = g + 1 := ⟨f - 1, by omega⟩
  cases m with
  | mk n ps rs ip =>
    rw [unifyMethod]
    simp only [bne_self_eq_false, Bool.or_self, Bool.false_eq_true, if_false]
    exact h1 f (by omega)

theorem unifyMethods_refl (ms full : List (String × GoMethod))
    (hsub : ∀ p ∈ ms, alookup full p.1 = some p.2)
    (hp : ∀ p ∈ ms, ∀ env, ∃ N, ∀ f, N ≤ f →
      unifyMethod f p.2 p.2 env = some (.ok, env)) :
    ∀ env, ∃ N, ∀ f, N ≤ f → unifyMethods f ms full env = some (.ok, env) := by
  induction ms with
  | nil =>
    intro env
    refine ⟨1, fun f hf => ?_⟩
    obtain ⟨f, rfl⟩ : ∃ g, f = g + 1 := ⟨f - 1, by omega⟩
    rw [unifyMethods]
  | cons hd rest ihr =>
    intro env
    obtain ⟨N1, h1⟩ := hp hd (List.mem_cons_self hd rest) env
    obtain ⟨N2, h2⟩ := ihr (fun p hp2 => hsub p (List.mem_cons_of_mem hd hp2))
      (fun p hp2 => hp p (List.mem_cons_of_mem hd hp2)) env
    refine ⟨N1 + N2 + 1, fun f hf => ?_⟩
    obtain ⟨f, rfl⟩ : ∃ g, f = g + 1 := ⟨f - 1, by omega⟩
    obtain ⟨k, m⟩ := hd
    have hlook : alookup full k = some m := hsub (k, m) (List.mem_cons_self _ _)
    have hm : unifyMethod f m m env = some (.ok, env) := h1 f (by omega)
    rw [unifyMethods, hlook]
    simp only [hm]
    exact h2 f (by omega)

/-- Reflexivity of `Unify` on `ReflOk` types: with enough fuel,
`Unify f a a env` succeeds and returns the environment unchanged. -/
theorem Unify_refl_of_ReflOk :
    ∀ (a : Ty), ReflOk a → ∀ env : TypeEnv,
      ∃ N, ∀ f, N ≤ f → Unify f a a env = some (.ok, env) := by
  intro a ha
  induction ha with
  | @tconst addr nm =>
    intro env
    refine ⟨2, fun f hf => ?_⟩
    obtain ⟨f, rfl⟩ : ∃ g, f = g + 1 := ⟨f - 1, by omega⟩
    rw [Unify, resolve_nonvar (by omega) (by rfl)]
    simp [isInterfaceAny]
  | @fn ps ret a v hps hret ihps ihret =>
    intro env
    obtain ⟨N1, h1⟩ := unifyList_refl ps ihps env
    obtain ⟨N2, h2⟩ := ihret env
    refine ⟨N1 + N2 + 2, fun f hf => ?_⟩
    obtain ⟨f, rfl⟩ : ∃ g, f = g + 1 := ⟨f - 1, by omega⟩
    rw [Unify, resolve_nonvar (by omega) (by rfl)]
    simp [isInterfaceAny, h1 f (by omega), h2 f (by omega)]
  | @tuple ts a hts ihts =>
    intro env
    obtain ⟨N1, h1⟩ := unifyList_refl ts ihts env
    refine ⟨N1 + 2, fun f hf => ?_⟩
    obtain ⟨f, rfl⟩ : ∃ g, f = g + 1 := ⟨f - 1, by omega⟩
    rw [Unify, resolve_nonvar (by omega) (by rfl)]
    simp [isInterfaceAny, h1 f (by omega)]
  | @slice e a he ihe =>
    intro env
    obtain ⟨N1, h1⟩ := ihe env
    refine ⟨N1 + 2, fun f hf => ?_⟩
    obtain ⟨f, rfl⟩ : ∃ g, f = g + 1 := ⟨f - 1, by omega⟩
    rw [Unify, resolve_nonvar (by omega) (by rfl)]
    simp [isInterfaceAny, h1 f (by omega)]
  | @generic tps a n cs fs ms htps ihtps =>
    intro env
    obtain ⟨N1, h1⟩ := unifyList_refl tps ihtps env
    refine ⟨N1 + 2, fun f hf => ?_⟩
    obtain ⟨f, rfl⟩ : ∃ g, f = g + 1 := ⟨f - 1, by omega⟩
    rw [Unify, resolve_nonvar (by omega) (by rfl)]
    simp [isInterfaceAny, GenericTy.name, GenericTy.typeParams, h1 f (by omega)]
  | @tmap k v a hk hv ihk ihv =>
    intro env
    obtain ⟨N1, h1⟩ := ihk env
    obtain ⟨N2, h2⟩ := ihv env
    refine ⟨N1 + N2 + 2, fun f hf => ?_⟩
    obtain ⟨f, rfl⟩ : ∃ g, f = g + 1 := ⟨f - 1, by omega⟩
    rw [Unify, resolve_nonvar (by omega) (by rfl)]
    simp [isInterfaceAny, h1 f (by omega), h2 f (by omega)]
  | @ptr b a hb ihb =>
    intro env
    obtain ⟨N1, h1⟩ := ihb env
    refine ⟨N1 + 2, fun f hf => ?_⟩
    obtain ⟨f, rfl⟩ : ∃ g, f = g + 1 := ⟨f - 1, by omega⟩
    rw [Unify, resolve_nonvar (by omega) (by rfl)]
    simp [isInterfaceAny, h1 f (by omega)]
  | @ifaceEmpty a n ms emb =>
    intro env
    refine ⟨2, fun f hf => ?_⟩
    obtain ⟨f, rfl⟩ : ∃ g, f = g + 1 := ⟨f - 1, by omega⟩
    rw [Unify, resolve_nonvar (by omega) (by rfl)]
    cases hn : n == "interface\x7b\x7d" <;> simp [isInterfaceAny, hn]
  | @iface ms a n hnodup hps ihps =>
    intro env
    have hself := alookup_self ms hnodup
    have hMs := unifyMethods_refl ms ms hself
      (fun p hp2 =>
        unifyMethod_refl p.2 (unifyList_refl (Prod.snd p).params (ihps p hp2)))
      env
    obtain ⟨N1, h1⟩ := hMs
    refine ⟨N1 + 2, fun f hf => ?_⟩
    obtain ⟨f, rfl⟩ : ∃ g, f = g + 1 := ⟨f - 1, by omega⟩
    rw [Unify, resolve_nonvar (by omega) (by rfl)]
    cases hn : n == "interface\x7b\x7d" <;>
      simp only [Unify, isInterfaceAny, hn, Bool.or_self, Bool.false_eq_true, if_false,
        if_true, bne_self_eq_false, h1 f (by omega)]
    · obtain ⟨f, rfl⟩ : ∃ g, f = g + 1 := ⟨f - 1, by omega⟩
      rw [unifyEmbedded]

/-! ## The claims -/

/-- C1 (code bug): substitution is supposed to rebuild a `Generic`'s fields
with the substituted contents, but the `GenericType` arm of
`substituteTypeParams` computes the substituted field map (`newFld`) and then
returns a node carrying the *original* `Fields` map.  First conjunct: on
`Box` with type parameter `T` and field `value : T`, substituting `T := int`
with a fresh visitor yields a `Generic` whose type parameters are rewritten
but whose field still has type `T`.  Second conjunct: the discarded `newFld`
computation (the field loop run on the same inputs, from the same visitor
state) did produce the substituted field `value : int`. -/
theorem c1_substitute_discards_field_substitution :
    substituteTypeParams 10
      (.generic 0 (.mk "Box" [.tvar 1 "T"] [] [("value", .tvar 2 "T")] []))
      [.tvar 1 "T"] [.tconst 3 "int"] []
      = some (.generic 0 (.mk "Box" [.tconst 3 "int"] [] [("value", .tvar 2 "T")] []),
          [2, 1, 0])
  ∧ substFields 10 [("value", .tvar 2 "T")] [.tvar 1 "T"] [.tconst 3 "int"] [1, 0]
      = some ([("value", .tconst 3 "int")], [2, 1, 0]) :=
  ⟨rfl, rfl⟩

/-- C2: generic instantiation is constraint-gated and rewrites parameter
occurrences.  (i) An argument count different from the type-parameter count
yields the arity error.  (ii) A resolved argument failing `checkConstraint`
against the constraint registered for its (variable) parameter aborts with a
constraint error naming that parameter.  (iii) When every argument resolves
and passes, the result is a new `Generic` whose type parameters are exactly
the resolved arguments and whose fields and methods are the
`substituteTypeParams` images.  (iv)/(v) The spec's example:
`Box[T]{T: allowedTypes [int]}` applied to `int` yields `Box<int>` with the
`T`-typed field and method result rewritten to `int`; applied to `string` it
fails with a constraint error naming `T`. -/
theorem c2_instantiation_constraint_gated :
    (∀ (fuel : Nat) (gt : GenericTy) (args : List TypeArg) (env : TypeEnv),
      gt.typeParams.length ≠ args.length →
      InstantiateGenericType (fuel + 1) gt args env
        = some (.errTypeArgsArity gt.typeParams.length args.length))
  ∧ (∀ (fuel pa : Nat) (pn nm : String) (c : GoConstraint) (ps : List Ty)
      (cs : List (String × GoConstraint)) (fs : List (String × Ty))
      (ms : List (String × GoMethod)) (argT : Ty) (args : List TypeArg)
      (env : TypeEnv),
      ps.length = args.length →
      alookup cs pn = some c →
      checkConstraint fuel argT c = some false →
      InstantiateGenericType (fuel + 2) (.mk nm (.tvar pa pn :: ps) cs fs ms)
        (.typ argT :: args) env = some (.errConstraint pn))
  ∧ (∀ (fuel : Nat) (gt : GenericTy) (args : List TypeArg) (env : TypeEnv)
      (resolved : List Ty) (newF : List (String × Ty)) (v2 : Visitor)
      (newM : List (String × GoMethod)) (v3 : Visitor),
      gt.typeParams.length = args.length →
      resolveTypeArgs fuel gt.typeParams gt.constraints args env
        = some (.inr resolved) →
      substFields fuel gt.fields gt.typeParams resolved [] = some (newF, v2) →
      instantiateMethods fuel gt.methods gt.typeParams resolved v2
        = some (newM, v3) →
      InstantiateGenericType (fuel + 1) gt args env
        = some (.ok (.generic 0 (.mk gt.name resolved [] newF newM))))
  ∧ InstantiateGenericType 20 boxGeneric [.typ (.tconst 5 "int")] []
      = some (.ok (.generic 0 (.mk "Box" [.tconst 5 "int"] []
          [("value", .tconst 5 "int")]
          [("get", .mk "get" [] [.tconst 5 "int"] false)])))
  ∧ InstantiateGenericType 20 boxGeneric [.typ (.tconst 5 "string")] []
      = some (.errConstraint "T") := by
  refine ⟨?_, ?_, ?_, rfl, rfl⟩
  · intro fuel gt args env h
    simp [InstantiateGenericType, bne_iff_ne, h]
  · intro fuel pa pn nm c ps cs fs ms argT args env hlen hc hfail
    simp [InstantiateGenericType, resolveTypeArgs, GenericTy.typeParams,
      GenericTy.constraints, hlen, hc, hfail, InferType]
  · intro fuel gt args env resolved newF v2 newM v3 hlen hargs hfs hms
    simp [InstantiateGenericType, hlen, hargs, hfs, hms]

/-- Closed witness for C2: the arity, constraint-failure and success clauses
applied at concrete inputs. -/
theorem c2_instantiation_witness :
    InstantiateGenericType 1 (.mk "P" [.tvar 0 "T"] [] [] []) [] []
      = some (.errTypeArgsArity 1 0)
  ∧ InstantiateGenericType 5 boxGeneric [.typ (.tconst 5 "string")] []
      = some (.errConstraint "T")
  ∧ InstantiateGenericType 11 boxGeneric [.typ (.tconst 5 "int")] []
      = some (.ok (.generic 0 (.mk "Box" [.tconst 5 "int"] []
          [("value", .tconst 5 "int")]
          [("get", .mk "get" [] [.tconst 5 "int"] false)]))) :=
  ⟨c2_instantiation_constraint_gated.1 0 _ [] [] (by simp [GenericTy.typeParams]),
   c2_instantiation_constraint_gated.2.1 3 1 "T" "Box"
     (.mk [] [.tconst 2 "int"] false false false "") [] _ _ _ (.tconst 5 "string")
     [] [] rfl rfl rfl,
   c2_instantiation_constraint_gated.2.2.1 10 boxGeneric [.typ (.tconst 5 "int")]
     [] _ _ _ _ _ rfl rfl rfl rfl⟩

/-- C3 counterexample: the claim's "top" is *any* interface value with the
empty flag set, but `isInterfaceAny` keys on the name `"interface{}"` alone,
so an `IsEmpty` interface under another name on the right of a non-interface
left side is a type mismatch, not an unconditional success. -/
theorem c3_top_interface_counterexample :
    Unify 3 (.tconst 1 "int") (.iface 2 "emptyIface" [] [] true) []
      = some (.err .typeMismatch, []) := rfl

/-- C3 as amended: with "top" being an interface value named
`"interface{}"` (the value the engine itself constructs for the empty
interface, whatever its flags), `unify(top, t)` and `unify(t, top)` both
succeed unconditionally and leave the environment unchanged, for every `t`
whose resolution terminates. -/
theorem c3_top_interface_amended :
    ∀ (fuel addr : Nat) (t r : Ty) (env : TypeEnv)
      (ms : List (String × GoMethod)) (emb : List Ty) (isE : Bool),
      resolve fuel t env = some r →
      Unify (fuel + 1) (.iface addr "interface\x7b\x7d" ms emb isE) t env
          = some (.ok, env)
      ∧ Unify (fuel + 1) t (.iface addr "interface\x7b\x7d" ms emb isE) env
          = some (.ok, env) := by
  intro fuel addr t r env ms emb isE h
  have hfuel : 1 ≤ fuel := by
    cases fuel with
    | zero => exact absurd h (by simp [resolve])
    | succ n => omega
  constructor
  · rw [Unify, resolve_nonvar hfuel (by rfl), h]
    simp [isInterfaceAny]
  · rw [Unify, h, resolve_nonvar hfuel (by rfl)]
    simp [isInterfaceAny]

/-- Closed witness for C3 (amended): both directions at `int` against the
canonical empty interface. -/
theorem c3_top_interface_witness :
    Unify 2 (.iface 4 "interface\x7b\x7d" [] [] true) (.tconst 1 "int") []
        = some (.ok, [])
    ∧ Unify 2 (.tconst 1 "int") (.iface 4 "interface\x7b\x7d" [] [] true) []
        = some (.ok, []) :=
  c3_top_interface_amended 1 4 (.tconst 1 "int") (.tconst 1 "int") [] [] [] true rfl

/-- C4 (code bug): an error while inferring a return expression is supposed
to abort the whole inference call, but `checkReturnType` executes
`return nil` when `InferType` fails, so the error is discarded and the
`ReturnStmt` arm succeeds.  First conjunct: a return statement whose single
result is an unknown identifier type-checks successfully.  Second conjunct:
inferring that identifier does fail. -/
theorem c4_return_error_swallowed :
    inferReturnStmt 10 { expectedType := some (.fn 2 [] (.tconst 3 "int") false) }
      [.ident "nope"] [("int", .tconst 1 "int")]
      = some (.ok, [("int", .tconst 1 "int")])
  ∧ InferType (.ident "nope") [("int", .tconst 1 "int")] {}
      = .error (.unknownIdent "nope") :=
  ⟨rfl, rfl⟩

/-- C5 (code bug): unifying a non-top `InterfaceType` on the left against a
non-interface right side is supposed to return a type-mismatch error, but
the guard `t1.IsEmpty || t2.(*InterfaceType).IsEmpty` performs an unchecked
type assertion on `t2` and panics. -/
theorem c5_interface_mismatch_panics :
    Unify 3 (.iface 1 "I" [] [] false) (.tconst 2 "int") [] = some (.crash, []) :=
  rfl

/-- C6 counterexample: `unify(a, a, env)` is *not* reflexive over the whole
`Type` union: `ArrayType` (like `StructType` and `TypeAlias`) has no arm in
`Unify`'s switch and falls through to `ErrUnknownType`. -/
theorem c6_reflexivity_counterexample :
    Unify 3 (.array 1 (.tconst 2 "int") 3) (.array 1 (.tconst 2 "int") 3) []
      = some (.err .unknownType, []) := rfl

/-- C6 as amended: `unify(a, a, env)` succeeds without changing `env` for
every variable-free type built from the variants `Unify` handles —
`Constant`, `Function`, `Tuple`, `Slice`, `Generic`, `Map`, `Pointer`,
empty interfaces, and non-empty interfaces without embedded entries — and
for an unbound type variable; it fails with `UnknownType` on `Array`,
`Struct` and `Alias` values. -/
theorem c6_reflexivity_amended :
    (∀ (a : Ty) (env : TypeEnv), ReflOk a →
      ∃ N, ∀ f, N ≤ f → Unify f a a env = some (.ok, env))
  ∧ (∀ (addr : Nat) (n : String) (env : TypeEnv), alookup env n = none →
      Unify 3 (.tvar addr n) (.tvar addr n) env = some (.ok, env)) := by
  constructor
  · intro a env ha
    exact Unify_refl_of_ReflOk a ha env
  · intro addr n env h
    simp [Unify, unifyVar, resolve, sameVarPtr, isInterfaceAny, h]

/-- Closed witness for C6 (amended): reflexivity at `int` and at an unbound
variable `T`. -/
theorem c6_reflexivity_witness :
    (∃ N, ∀ f, N ≤ f → Unify f (.tconst 1 "int") (.tconst 1 "int") []
      = some (.ok, []))
  ∧ Unify 3 (.tvar 2 "T") (.tvar 2 "T") [] = some (.ok, []) :=
  ⟨c6_reflexivity_amended.1 (.tconst 1 "int") [] .tconst,
   c6_reflexivity_amended.2 2 "T" [] rfl⟩

/-- C7 counterexample: a single-index instantiation (`*ast.IndexExpr`) of
the two-parameter generic `Pair[K, V]` does not fail with an arity error: the
arm replicates the one index across both type parameters and succeeds,
producing `Pair<int, int>`. -/
theorem c7_index_arity_counterexample :
    inferIndexExpr 20 (.ident "Pair") (.ident "int") pairEnv
      = some (.ok (.generic 0 (.mk "Pair" [.tconst 6 "int", .tconst 6 "int"] []
          [("first", .tconst 6 "int"), ("second", .tconst 6 "int")] []))) := rfl

/-- C7 as amended: only the multi-index arm (`*ast.IndexListExpr`) checks
the index count against the type-parameter count, failing with the
"expected N type parameters" error on mismatch; the single-index arm
(`*ast.IndexExpr`) performs no such check — it replicates its one index once
per type parameter and delegates to `InstantiateGenericType` (whose own
arity check is then trivially satisfied). -/
theorem c7_index_arity_amended :
    (∀ (fuel : Nat) (base : String) (indices : List AExpr) (env : TypeEnv)
      (ga : Nat) (g : GenericTy),
      alookup env base = some (.generic ga g) →
      indices.length ≠ g.typeParams.length →
      inferIndexListExpr fuel (.ident base) indices env
        = some (.errIndexCount g.typeParams.length indices.length))
  ∧ (∀ (fuel : Nat) (base : String) (index : AExpr) (env : TypeEnv)
      (ga : Nat) (g : GenericTy),
      alookup env base = some (.generic ga g) →
      inferIndexExpr fuel (.ident base) index env
        = InstantiateGenericType fuel g
            (List.replicate g.typeParams.length (.expr index)) env) := by
  constructor
  · intro fuel base indices env ga g hbase hlen
    simp [inferIndexListExpr, InferType, hbase, bne_iff_ne, hlen]
  · intro fuel base index env ga g hbase
    simp [inferIndexExpr, InferType, hbase]

/-- Closed witness for C7 (amended): the index-count error on `Pair[int]`
written as an `IndexListExpr` with one index, and the replication equation on
the same generic. -/
theorem c7_index_arity_witness :
    inferIndexListExpr 20 (.ident "Pair") [.ident "int"] pairEnv
      = some (.errIndexCount 2 1)
  ∧ inferIndexExpr 20 (.ident "Pair") (.ident "int") pairEnv
      = InstantiateGenericType 20
          (.mk "Pair" [.tvar 7 "K", .tvar 8 "V"] []
            [("first", .tvar 9 "K"), ("second", .tvar 10 "V")] [])
          (List.replicate 2 (.expr (.ident "int"))) pairEnv :=
  ⟨c7_index_arity_amended.1 20 "Pair" [.ident "int"] pairEnv 5 _ rfl (by simp [GenericTy.typeParams]),
   c7_index_arity_amended.2 20 "Pair" (.ident "int") pairEnv 5 _ rfl⟩

/-- C8: the occurs check matches its narrow definition.  (i) When `t`
resolves to anything that is neither a variable nor a function, `occurs` is
`false`.  (ii) When `t` resolves to an unbound variable, `occurs` is exactly
pointer equality with `v`.  (iii) The claim's example:
`unify(Variable("T"), Function([Variable("T")], Constant("int")))` fails with
`CircularReference` (the two `T` occurrences being the same node).  (iv)-(vi)
Unifying a fresh variable against a `Slice`, `Map`, or `Generic` containing
that same variable succeeds and stores the binding, because `occurs` does not
descend into those variants. -/
theorem c8_occurs_check_narrow :
    (∀ (fuel va : Nat) (vn : String) (t r : Ty) (env : TypeEnv),
      resolve fuel t env = some r → r.isTVar = false → r.isFn = false →
      occurs (fuel + 1) va vn t env = some false)
  ∧ (∀ (fuel va a2 : Nat) (vn n2 : String) (t : Ty) (env : TypeEnv),
      resolve fuel t env = some (.tvar a2 n2) → alookup env n2 = none →
      occurs (fuel + 1) va vn t env = some (sameVarPtr va vn (.tvar a2 n2)))
  ∧ Unify 10 (.tvar 1 "T") (.fn 2 [.tvar 1 "T"] (.tconst 3 "int") false) []
      = some (.err .circularReference, [])
  ∧ Unify 10 (.tvar 1 "T") (.slice 2 (.tvar 1 "T")) []
      = some (.ok, [("T", .slice 2 (.tvar 1 "T"))])
  ∧ Unify 10 (.tvar 1 "T") (.tmap 2 (.tvar 1 "T") (.tconst 3 "int")) []
      = some (.ok, [("T", .tmap 2 (.tvar 1 "T") (.tconst 3 "int"))])
  ∧ Unify 10 (.tvar 1 "T") (.generic 2 (.mk "G" [.tvar 1 "T"] [] [] [])) []
      = some (.ok, [("T", .generic 2 (.mk "G" [.tvar 1 "T"] [] [] []))]) := by
  refine ⟨?_, ?_, rfl, rfl, rfl, rfl⟩
  · intro fuel va vn t r env h h1 h2
    rw [occurs, h]
    cases r <;> simp_all [Ty.isTVar, Ty.isFn]
  · intro fuel va a2 vn n2 t env h h2
    rw [occurs, h]
    cases hs : sameVarPtr va vn (.tvar a2 n2) <;> simp [hs, h2]

/-- Closed witness for C8: the universal clauses at a constant and at the
variable itself. -/
theorem c8_occurs_check_witness :
    occurs 2 1 "T" (.tconst 9 "int") [] = some false
  ∧ occurs 2 1 "T" (.tvar 1 "T") [] = some (sameVarPtr 1 "T" (.tvar 1 "T")) :=
  ⟨c8_occurs_check_narrow.1 1 1 "T" (.tconst 9 "int") (.tconst 9 "int") [] rfl rfl rfl,
   c8_occurs_check_narrow.2.1 1 1 1 "T" "T" (.tvar 1 "T") [] rfl rfl⟩

/-- C9: a bound variable is never rebound.  The only environment write in
the unifier is guarded by a failed lookup, so whatever a `Unify` call does —
succeed, fail, or crash — a binding present on entry is present, unchanged,
on exit.  In particular a failing re-unification against an existing binding
leaves that binding intact, and a successful call never replaces it. -/
theorem c9_bound_variable_never_rebound :
    ∀ (fuel : Nat) (t1 t2 : Ty) (env : TypeEnv) (r : URes) (env2 : TypeEnv)
      (vname : String) (T0 : Ty),
      alookup env vname = some T0 →
      Unify fuel t1 t2 env = some (r, env2) →
      alookup env2 vname = some T0 :=
  fun fuel t1 t2 env r env2 vname T0 hb hu =>
    (unify_preserves fuel).1 t1 t2 env r env2 hu vname T0 hb

/-- Closed witness for C9: `T` is bound to `int`; re-unifying `T` against
`string` fails with a type mismatch and the environment still maps `T` to
`int`. -/
theorem c9_bound_variable_witness :
    Unify 5 (.tvar 2 "T") (.tconst 3 "string") [("T", .tconst 1 "int")]
      = some (.err .typeMismatch, [("T", .tconst 1 "int")])
  ∧ alookup [("T", Ty.tconst 1 "int")] "T" = some (.tconst 1 "int") :=
  ⟨rfl, c9_bound_variable_never_rebound 5 (.tvar 2 "T") (.tconst 3 "string")
    [("T", .tconst 1 "int")] (.err .typeMismatch) [("T", .tconst 1 "int")]
    "T" (.tconst 1 "int") rfl rfl⟩

/-- C10: `Unify` is not atomic on the environment.  Unifying
`Function([Variable("T"), Constant("string")], Constant("int"))` with
`Function([Constant("int"), Constant("int")], Constant("int"))` in an empty
environment fails with a type mismatch on the second parameter pair, yet the
returned environment has gained the binding `T -> int` made by the first
parameter pair. -/
theorem c10_unify_not_atomic :
    Unify 10 (.fn 1 [.tvar 2 "T", .tconst 3 "string"] (.tconst 4 "int") false)
      (.fn 5 [.tconst 6 "int", .tconst 7 "int"] (.tconst 8 "int") false) []
      = some (.err .typeMismatch, [("T", .tconst 6 "int")]) := rfl

end GenericGo
